import Mathlib

/-!
Verification of the field-normalization / duplicate-detection / anomaly-detection
core of the expense-reconciliation backend
(`src/services/analytics/anomaly_service.py` and
`src/services/extraction/normalization_service.py`).

Modelling conventions:
* Python floats are modelled as exact rationals (the specification speaks of
  optional decimals); binary rounding of IEEE doubles is not modelled.
* `datetime` values are modelled as integers (seconds since the civil epoch);
  `timedelta.days` is floor division by 86400, exactly as in CPython.
* `rapidfuzz.fuzz.token_set_ratio` and the sklearn `IsolationForest` backend are
  external libraries, not code of this repository; they are modelled as injectable
  capabilities (a similarity function parameter, and an optional model function
  whose absence models the failed import / disabled flag).
* Raising Python code is embedded in `Except PyError`; code that cannot raise is
  embedded as plain functions.
* Finding messages: the source formats human-readable strings embedding computed
  numbers (for instance the z value with two decimals).  Findings are modelled by
  a constructor identifying the detector plus the label/message components the
  source interpolates; the formatted numeric text itself is not modelled, and no
  property below inspects it.
* `float()` is modelled on finite decimal literals (optional sign, digits with at
  most one dot, optional exponent, surrounding whitespace); `inf`/`nan` and
  digit-group underscores are outside the inputs considered here.
* `str.isalnum` is Unicode-aware in Python; every non-ASCII character is treated
  as alphanumeric, which is correct for the CJK text occurring in this code base.
* `datetime.fromisoformat` is modelled on the `YYYY-MM-DD[*HH[:MM[:SS]]]` grammar;
  fractional seconds and timezone offsets are treated as parse failures.
* `ReceiptProfile.created_at` is set by the source but never read by any code
  path; it is omitted from the embedded record.
-/

namespace EFMS

/-- A value of the flat input field mapping: Python strings and numbers. -/
inductive Value where
  | str (s : String)
  | num (q : ℚ)
deriving DecidableEq, Repr

/-- Python truthiness of a field value: empty string and zero are falsy. -/
def Value.truthy : Value → Bool
  | .str s => s ≠ ""
  | .num q => q ≠ 0

/-- Exceptions that can escape the embedded code. -/
inductive PyError where
  | attributeError
  | typeError
deriving DecidableEq, Repr

/-- Python `a or b` over optional field values: the first operand when truthy,
otherwise the second operand. -/
def pyOrOpt (a b : Option Value) : Option Value :=
  match a with
  | some v => if v.truthy then some v else b
  | none => b

/-- Python `a or dflt` where the default is a constant value. -/
def pyOrDefault (a : Option Value) (dflt : Value) : Value :=
  match a with
  | some v => if v.truthy then v else dflt
  | none => dflt

/-- Strip leading and trailing whitespace from a character list. -/
def trimChars (cs : List Char) : List Char :=
  ((cs.dropWhile Char.isWhitespace).reverse.dropWhile Char.isWhitespace).reverse

/-- Python `s.strip()` on a string. -/
def pyTrim (s : String) : String := String.mk (trimChars s.toList)

/-- Python `s.lower()` on a string (ASCII case folding; CJK has no case). -/
def pyToLower (s : String) : String := String.mk (s.toList.map Char.toLower)

/-- Python `value.strip()`: succeeds on strings, raises `AttributeError` on
numbers (numbers have no `strip` method). -/
def pyStrip : Value → Except PyError String
  | .str s => .ok (pyTrim s)
  | .num _ => .error .attributeError

/-- Python `value.lower()`: succeeds on strings, raises `AttributeError` on
numbers. -/
def pyLower : Value → Except PyError String
  | .str s => .ok (pyToLower s)
  | .num _ => .error .attributeError

/-- Split a character list on a separator predicate (separators not kept). -/
def splitListOn (p : Char → Bool) (cs : List Char) : List (List Char) :=
  cs.foldr
    (fun c acc =>
      match acc with
      | g :: gs => if p c then [] :: g :: gs else (c :: g) :: gs
      | [] => [[c]])
    [[]]

/-- Numeric value of a digit list (most significant first). -/
def digitsToNat (cs : List Char) : ℕ :=
  cs.foldl (fun n c => 10 * n + (c.toNat - 48)) 0

/-- A nonempty all-digit character list, as a number. -/
def parseNatDigits? (cs : List Char) : Option ℕ :=
  if cs ≠ [] && cs.all Char.isDigit then some (digitsToNat cs) else none

/-- Optional leading sign; returns (negative, rest). -/
def parseSign : List Char → Bool × List Char
  | '-' :: cs => (true, cs)
  | '+' :: cs => (false, cs)
  | cs => (false, cs)

/-- Mantissa of a decimal literal: digits with at most one dot, at least one
digit overall.  Returns the combined digit value and the number of fractional
digits, so `(n, k)` denotes the value `n / 10^k`. -/
def parseMantissa? (cs : List Char) : Option (ℕ × ℕ) :=
  match splitListOn (fun c => c = '.') cs with
  | [a] => if a ≠ [] && a.all Char.isDigit then some (digitsToNat a, 0) else none
  | [a, b] =>
    if (a ≠ [] || b ≠ []) && a.all Char.isDigit && b.all Char.isDigit then
      some (digitsToNat a * 10 ^ b.length + digitsToNat b, b.length)
    else none
  | _ => none

/-- The rational value `±(num / 10^fracLen) · 10^(±exp)` of a parsed decimal
literal, built with a single integer division. -/
def ratOfParts (neg : Bool) (num fracLen : ℕ) (expNeg : Bool) (exp : ℕ) : ℚ :=
  let sNum : ℤ := if neg then -(num : ℤ) else (num : ℤ)
  if expNeg then Rat.divInt sNum ((10 : ℤ) ^ (fracLen + exp))
  else Rat.divInt (sNum * (10 : ℤ) ^ exp) ((10 : ℤ) ^ fracLen)

/-- Python `float(s)` on finite decimal literals: optional surrounding
whitespace, optional sign, mantissa, optional exponent.  `none` models the
`ValueError` raised on anything else. -/
def parseFloat? (s : String) : Option ℚ :=
  let cs := trimChars s.toList
  let sg := parseSign cs
  match splitListOn (fun c => c = 'e' || c = 'E') sg.2 with
  | [m] =>
    match parseMantissa? m with
    | some nk => some (ratOfParts sg.1 nk.1 nk.2 false 0)
    | none => none
  | [m, e] =>
    match parseMantissa? m with
    | some nk =>
      let esg := parseSign e
      match parseNatDigits? esg.2 with
      | some n => some (ratOfParts sg.1 nk.1 nk.2 esg.1 n)
      | none => none
    | none => none
  | _ => none

/-- Python `s.replace(c, r)` for a one-character pattern. -/
def replaceChar (s : String) (c : Char) (r : String) : String :=
  String.join (s.toList.map (fun ch => if ch = c then r else String.singleton ch))

/-- Is the first list a prefix of the second? -/
def isPrefixOfChars : List Char → List Char → Bool
  | [], _ => true
  | _ :: _, [] => false
  | a :: as, b :: bs => a = b && isPrefixOfChars as bs

/-- Does the pattern occur as a contiguous sublist? -/
def containsSubChars (sub : List Char) : List Char → Bool
  | [] => sub = []
  | c :: rest => isPrefixOfChars sub (c :: rest) || containsSubChars sub rest

/-- Substring test, Python `sub in s`. -/
def strContains (s sub : String) : Bool :=
  if sub = "" then true else containsSubChars sub.toList s.toList

/-! ### Datetime machinery (`datetime.strptime`, `datetime.fromisoformat`) -/

/-- Broken-down datetime as produced by the parsers. -/
structure DateTimeParts where
  year : ℕ
  month : ℕ
  day : ℕ
  hour : ℕ := 0
  minute : ℕ := 0
  second : ℕ := 0
deriving DecidableEq, Repr

def isLeap (y : ℕ) : Bool :=
  (y % 4 = 0 && y % 100 ≠ 0) || y % 400 = 0

def daysInMonth (y m : ℕ) : ℕ :=
  if m = 2 then (if isLeap y then 29 else 28)
  else if m = 4 || m = 6 || m = 9 || m = 11 then 30 else 31

/-- The validity conditions `datetime(...)` enforces (`ValueError` otherwise). -/
def validDT (t : DateTimeParts) : Bool :=
  1 ≤ t.year && t.year ≤ 9999 && 1 ≤ t.month && t.month ≤ 12 &&
  1 ≤ t.day && t.day ≤ daysInMonth t.year t.month &&
  t.hour ≤ 23 && t.minute ≤ 59 && t.second ≤ 59

/-- Days since 1970-01-01 of a civil date (standard civil-calendar algorithm). -/
def daysFromCivil (y m d : ℤ) : ℤ :=
  let y2 := if m ≤ 2 then y - 1 else y
  let era := Int.fdiv y2 400
  let yoe := y2 - era * 400
  let mp := Int.emod (m + 9) 12
  let doy := Int.fdiv (153 * mp + 2) 5 + d - 1
  let doe := yoe * 365 + Int.fdiv yoe 4 - Int.fdiv yoe 100 + doy
  era * 146097 + doe - 719468

/-- Seconds since the epoch of a broken-down datetime. -/
def dtToEpochSeconds (t : DateTimeParts) : ℤ :=
  daysFromCivil (t.year : ℤ) (t.month : ℤ) (t.day : ℤ) * 86400 +
    (t.hour : ℤ) * 3600 + (t.minute : ℤ) * 60 + (t.second : ℤ)

/-- Exactly `n` digits. -/
def takeExactDigits (n : ℕ) (cs : List Char) : Option (ℕ × List Char) :=
  let pre := cs.take n
  if pre.length = n && pre.all Char.isDigit then some (digitsToNat pre, cs.drop n)
  else none

/-- One or two digits, greedy (the `\d{1,2}` of `strptime`'s `%m`, `%d`, …). -/
def take12Digits : List Char → Option (ℕ × List Char)
  | c1 :: c2 :: rest =>
    if c1.isDigit && c2.isDigit then some (digitsToNat [c1, c2], rest)
    else if c1.isDigit then some (digitsToNat [c1], c2 :: rest)
    else none
  | [c1] => if c1.isDigit then some (digitsToNat [c1], []) else none
  | [] => none

def expectChar (c : Char) : List Char → Option (List Char)
  | x :: xs => if x = c then some xs else none
  | [] => none

/-- `datetime.strptime(s, "%Y<sep>%m<sep>%d")`. -/
def parseYMDSep (sep : Char) (s : String) : Option DateTimeParts := do
  let cs := s.toList
  let (y, cs) ← takeExactDigits 4 cs
  let cs ← expectChar sep cs
  let (m, cs) ← take12Digits cs
  let cs ← expectChar sep cs
  let (d, cs) ← take12Digits cs
  if cs = [] then
    let t : DateTimeParts := { year := y, month := m, day := d }
    if validDT t then some t else none
  else none

/-- `datetime.strptime(s, "%Y%m%d")`: four year digits then 2–4 further digits,
month taken greedily. -/
def parseYMDCompact (s : String) : Option DateTimeParts := do
  let (y, rest) ← takeExactDigits 4 s.toList
  if rest.all Char.isDigit && 2 ≤ rest.length && rest.length ≤ 4 then
    let cut := if rest.length = 2 then 1 else 2
    let t : DateTimeParts :=
      { year := y, month := digitsToNat (rest.take cut), day := digitsToNat (rest.drop cut) }
    if validDT t then some t else none
  else none

/-- `datetime.strptime(s, "%Y-%m-%d %H:%M:%S")`. -/
def parseYMDHMS (s : String) : Option DateTimeParts := do
  let cs := s.toList
  let (y, cs) ← takeExactDigits 4 cs
  let cs ← expectChar '-' cs
  let (mo, cs) ← take12Digits cs
  let cs ← expectChar '-' cs
  let (d, cs) ← take12Digits cs
  let cs ← expectChar ' ' cs
  let (h, cs) ← take12Digits cs
  let cs ← expectChar ':' cs
  let (mi, cs) ← take12Digits cs
  let cs ← expectChar ':' cs
  let (sec, cs) ← take12Digits cs
  if cs = [] then
    let t : DateTimeParts :=
      { year := y, month := mo, day := d, hour := h, minute := mi, second := sec }
    if validDT t then some t else none
  else none

/-- Time tail of `fromisoformat`: `HH[:MM[:SS]]`. -/
def parseIsoTime (cs : List Char) : Option (ℕ × ℕ × ℕ) := do
  let (h, cs) ← takeExactDigits 2 cs
  match cs with
  | [] => some (h, 0, 0)
  | _ => do
    let cs ← expectChar ':' cs
    let (mi, cs) ← takeExactDigits 2 cs
    match cs with
    | [] => some (h, mi, 0)
    | _ => do
      let cs ← expectChar ':' cs
      let (sec, cs) ← takeExactDigits 2 cs
      if cs = [] then some (h, mi, sec) else none

/-- `datetime.fromisoformat(s)`: `YYYY-MM-DD`, optionally one separator character
and a time; fractional seconds / timezone offsets are treated as failures. -/
def parseIso (s : String) : Option DateTimeParts := do
  let cs := s.toList
  let (y, cs) ← takeExactDigits 4 cs
  let cs ← expectChar '-' cs
  let (m, cs) ← takeExactDigits 2 cs
  let cs ← expectChar '-' cs
  let (d, cs) ← takeExactDigits 2 cs
  let tl ← match cs with
    | [] => some (0, 0, 0)
    | _ :: rest => parseIsoTime rest
  let t : DateTimeParts :=
    { year := y, month := m, day := d, hour := tl.1, minute := tl.2.1, second := tl.2.2 }
  if validDT t then some t else none

/-! ### Configuration (`config.py` defaults) -/

/-- The configuration surface read by the two services, with the defaults of
`config.py`. -/
structure Settings where
  anomaly_amount_sigma : ℚ := 5 / 2
  anomaly_vendor_history_limit : ℕ := 100
  anomaly_global_history_limit : ℕ := 500
  anomaly_tax_ratio_upper : ℚ := 17 / 100
  anomaly_tax_ratio_lower : ℚ := 0
  anomaly_duplicate_vendor_similarity : ℚ := 88
  anomaly_duplicate_amount_tolerance : ℚ := 1 / 2
  anomaly_duplicate_date_tolerance_days : ℕ := 3
  anomaly_ml_min_samples : ℕ := 25
  enable_anomaly_ml : Bool := false

/-- Engine construction data: the settings plus the two external capabilities —
`rapidfuzz.fuzz.token_set_ratio` as a similarity score in 0‥100, and the sklearn
backed detector (`none` models `IsolationForest is None`, the failed import). -/
structure Config where
  settings : Settings := {}
  sim : String → String → ℚ
  mlModel : Option (List ℚ → ℚ → String → Option String) := none

/-- A concrete similarity instantiating the capability in closed evaluations:
100 for equal strings (as `token_set_ratio` gives), 0 otherwise. -/
def simEq (a b : String) : ℚ := if a = b then 100 else 0

/-- Engine configuration with default settings and the given capabilities. -/
def cfgOf (sim : String → String → ℚ)
    (ml : Option (List ℚ → ℚ → String → Option String)) : Config :=
  { settings := {}, sim := sim, mlModel := ml }

/-- Default-settings configuration used in closed evaluations. -/
def testCfg : Config := cfgOf simEq none

/-! ### `NormalizationService` (`normalization_service.py`) -/

/-- The alias→canonical vendor dictionary, in insertion order (oldest first);
this is the `OrderedDict` field `vendor_lexicon`. -/
abbrev Lexicon := List (String × String)

/-- Mutable state of `NormalizationService`: the bounded vendor dictionary and
its capacity (constructor default 2000). -/
structure NormState where
  vendor_lexicon : Lexicon := []
  vendor_cache_limit : ℕ := 2000
deriving DecidableEq, Repr

/-- `_sanitize_vendor`: collapse whitespace runs to single spaces and trim;
`None`/empty in, `None` out. -/
def sanitizeVendor : Option String → Option String
  | none => none
  | some v =>
    if v = "" then none
    else
      let parts := (splitListOn Char.isWhitespace v.toList).filter (fun t => t ≠ [])
      let s := " ".intercalate (parts.map String.mk)
      if s = "" then none else some s

/-- `_remember_vendor`: pop an existing alias entry, append as most recent,
evict the oldest entry when over capacity. -/
def rememberVendor (lex : Lexicon) (limit : ℕ) (aliasKey canonical : String) : Lexicon :=
  let lex2 := (lex.filter (fun e => e.1 ≠ aliasKey)) ++ [(aliasKey, canonical)]
  if limit < lex2.length then lex2.drop 1 else lex2

/-- Python `max(items, key=score)`: the first item of maximal score. -/
def maxByScore : List (String × ℚ) → Option (String × ℚ)
  | [] => none
  | x :: xs => some (xs.foldl (fun best y => if best.2 < y.2 then y else best) x)

/-- `_canonicalize_vendor`: sanitize, score every alias, return the canonical of
the best-scoring alias when its score exceeds 90, otherwise register the vendor
as a new canonical entry.  Returns the canonical result and the next state. -/
def canonicalizeVendor (sim : String → String → ℚ) (st : NormState)
    (vendor : Option String) : Option String × NormState :=
  match sanitizeVendor vendor with
  | none => (none, st)
  | some v =>
    let scores : List (String × ℚ) := st.vendor_lexicon.map (fun e => (e.2, sim v e.1))
    match maxByScore scores with
    | some ws =>
      if ws.2 > 90 then (some ws.1, st)
      else
        (some v,
         { st with vendor_lexicon := rememberVendor st.vendor_lexicon st.vendor_cache_limit v v })
    | none =>
      (some v,
       { st with vendor_lexicon := rememberVendor st.vendor_lexicon st.vendor_cache_limit v v })

/-- One normalize call as a state transition on the vendor dictionary. -/
def canonStep (sim : String → String → ℚ) (st : NormState) (vendor : Option String) :
    NormState :=
  (canonicalizeVendor sim st vendor).2

/-- The sanitisation both `_to_float` implementations share: remove thousands
separators (ASCII and fullwidth), the fullwidth yen sign and the unit suffix,
then strip whitespace. -/
def sanitizeAmountString (s : String) : String :=
  let s1 := replaceChar s ',' ""
  let s2 := replaceChar s1 '，' ""
  let s3 := replaceChar s2 '￥' ""
  let s4 := replaceChar s3 '元' ""
  pyTrim s4

/-- Python `s.startswith(l) and s.endswith(r)` followed by `s[1:-1]`
(`NormalizationService._to_float`'s parenthesis handling). -/
def stripParenPair (s : String) (l r : Char) : Bool × String :=
  let cs := s.toList
  if cs.head? = some l ∧ cs.getLast? = some r ∧ 2 ≤ cs.length then
    (true, String.mk (cs.drop 1).dropLast)
  else (false, s)

/-- `NormalizationService._to_float`: strip separators/currency marks, interpret
a fully parenthesised string as negation, parse; `None` on failure. -/
def normToFloat (value : Option Value) : Option ℚ :=
  match value with
  | none => none
  | some (.num q) => some q
  | some (.str s) =>
    let sanitized := sanitizeAmountString s
    let p1 := stripParenPair sanitized '(' ')'
    let p2 := stripParenPair p1.2 '（' '）'
    let negative := p1.1 || p2.1
    match parseFloat? p2.2 with
    | some q => some (if negative then -q else q)
    | none => none

/-- The character rewriting `_normalize_date` performs before parsing:
`年`/`月` to `-`, `日` removed, `.` and `/` to `-`. -/
def transformDateString (s : String) : String :=
  let s1 := replaceChar s '年' "-"
  let s2 := replaceChar s1 '月' "-"
  let s3 := replaceChar s2 '日' ""
  let s4 := replaceChar s3 '.' "-"
  replaceChar s4 '/' "-"

/-- The parse cascade of `_normalize_date`: `fromisoformat` first, then the
explicit formats `%Y-%m-%d`, `%Y-%m-%d %H:%M:%S`, `%Y%m%d`. -/
def normDateParse (s : String) : Option DateTimeParts :=
  match parseIso s with
  | some t => some t
  | none =>
    match parseYMDSep '-' s with
    | some t => some t
    | none =>
      match parseYMDHMS s with
      | some t => some t
      | none => parseYMDCompact s

/-- Zero-padded decimal rendering. -/
def padNum (width n : ℕ) : String :=
  let d := toString n
  String.mk (List.replicate (width - d.length) '0') ++ d

/-- `dt.date().isoformat()`. -/
def isoDateString (t : DateTimeParts) : String :=
  padNum 4 t.year ++ "-" ++ padNum 2 t.month ++ "-" ++ padNum 2 t.day

/-- `NormalizationService._normalize_date`: falsy in, `None` out; otherwise
rewrite the separators, parse, and return the ISO date on success or the
rewritten string on failure. -/
def normalizeDate : Option String → Option String
  | none => none
  | some s =>
    if s = "" then none
    else
      let t := transformDateString s
      match normDateParse t with
      | some dt => some (isoDateString dt)
      | none => some t

/-! ### `AnomalyDetectionService` (`anomaly_service.py`) -/

/-- The value object built per analyzed document (`created_at` is set by the
source but never read, and is omitted). -/
structure ReceiptProfile where
  document_id : String
  vendor : String
  normalized_vendor : String
  issue_date : Option ℤ
  amount : Option ℚ
  tax_amount : Option ℚ
  category : Option Value
deriving DecidableEq, Repr

/-- A finding, identified by its detector and the label/message the source
interpolates into the formatted string. -/
inductive Finding where
  | zScore (scope : String)
  | mad (label : String)
  | ml (msg : String)
  | rule (message : String)
deriving DecidableEq, Repr

/-- The flat input field mapping consumed by `analyze` (and passed to the rule
engine as the raw payload). -/
structure Normalized where
  vendor_name : Option Value := none
  total_amount : Option Value := none
  tax_amount : Option Value := none
  issue_date : Option Value := none
  currency : Option Value := none
  category : Option Value := none
  expense_category : Option Value := none
deriving DecidableEq, Repr

/-- A declarative rule: predicates may raise. -/
structure RuleDefinition where
  name : String
  message : String
  predicate : ReceiptProfile → Normalized → Except PyError Bool

/-- `AnomalyDetectionService._to_float`: like the normalization variant but the
parentheses are rewritten characterwise (`(` and `（` to `-`, `)` and `）`
removed), and an empty sanitized string short-circuits to `None`. -/
def anomToFloat (value : Option Value) : Option ℚ :=
  match value with
  | none => none
  | some (.num q) => some q
  | some (.str s) =>
    let sanitized := sanitizeAmountString s
    if sanitized = "" then none
    else
      let s1 := replaceChar sanitized '(' "-"
      let s2 := replaceChar s1 ')' ""
      let s3 := replaceChar s2 '（' "-"
      let s4 := replaceChar s3 '）' ""
      parseFloat? s4

/-- `_normalize_vendor`: lowercase, keep only alphanumeric characters.  Python's
`str.isalnum` is Unicode-aware; non-ASCII characters are treated as
alphanumeric, which is correct for the CJK text occurring here. -/
def normalizeVendor (s : String) : String :=
  String.mk ((s.toList.map Char.toLower).filter (fun c => c.isAlphanum || 0x80 ≤ c.toNat))

/-- `_parse_date`: falsy values parse to `None`; strings go through the
`strptime` format list then `fromisoformat`, all failures being the caught
`ValueError`; a truthy number reaches `strptime`, which raises an uncaught
`TypeError`. -/
def parseDate (v : Option Value) : Except PyError (Option ℤ) :=
  match v with
  | none => .ok none
  | some val =>
    if ! val.truthy then .ok none
    else
      match val with
      | .num _ => .error .typeError
      | .str s =>
        match parseYMDSep '-' s with
        | some t => .ok (some (dtToEpochSeconds t))
        | none =>
          match parseYMDSep '/' s with
          | some t => .ok (some (dtToEpochSeconds t))
          | none =>
            match parseYMDHMS s with
            | some t => .ok (some (dtToEpochSeconds t))
            | none =>
              match parseYMDCompact s with
              | some t => .ok (some (dtToEpochSeconds t))
              | none =>
                match parseIso s with
                | some t => .ok (some (dtToEpochSeconds t))
                | none => .ok none

/-- `_build_profile`: the only raising step of `analyze` — `.strip()` on the
vendor value and `strptime` on the issue date propagate for truthy numeric
inputs. -/
def buildProfile (documentId : String) (n : Normalized) :
    Except PyError ReceiptProfile := do
  let vendor ← pyStrip (pyOrDefault n.vendor_name (.str "未知供应商"))
  let issueDate ← parseDate n.issue_date
  .ok
    { document_id := documentId
      vendor := vendor
      normalized_vendor := normalizeVendor vendor
      issue_date := issueDate
      amount := anomToFloat n.total_amount
      tax_amount := anomToFloat n.tax_amount
      category := pyOrOpt n.category n.expense_category }

/-- Mutable state of one `AnomalyDetectionService` instance. -/
structure EngineState where
  global_amount_history : List ℚ := []
  vendor_amount_history : List (String × List ℚ) := []
  duplicate_profiles : List ReceiptProfile := []
deriving DecidableEq, Repr

/-- The fresh state built by `__init__`. -/
def initState : EngineState := {}

/-- `DUPLICATE_BUFFER_LIMIT`. -/
def DUPLICATE_BUFFER_LIMIT : ℕ := 2000

/-- Append to a `deque(maxlen=maxlen)`: the oldest entries are discarded when
the bound is exceeded. -/
def dequeAppend (maxlen : ℕ) (xs : List α) (x : α) : List α :=
  let ys := xs ++ [x]
  if maxlen < ys.length then ys.drop (ys.length - maxlen) else ys

/-- Insertion-ordered dictionary update (Python dict semantics: an existing key
keeps its position, a new key is appended last). -/
def assocSet (m : List (String × List ℚ)) (k : String) (v : List ℚ) :
    List (String × List ℚ) :=
  match m with
  | [] => [(k, v)]
  | e :: rest => if e.1 = k then (k, v) :: rest else e :: assocSet rest k v

/-- Python truthiness of `profile.amount` (`None` and `0.0` are falsy). -/
def truthyAmount (p : ReceiptProfile) : Bool :=
  match p.amount with
  | some q => q ≠ 0
  | none => false

/-- `_is_value_close`: missing operands never compare close. -/
def isValueClose : Option ℚ → Option ℚ → ℚ → Bool
  | some a, some b, tol => |a - b| ≤ tol
  | _, _, _ => false

/-- `_date_within`: a missing date passes; otherwise
`abs((a - b).days) <= days`, with `timedelta.days` the floor of the difference
in whole days. -/
def dateWithin (a b : Option ℤ) (days : ℕ) : Bool :=
  match a, b with
  | some x, some y => (Int.fdiv (x - y) 86400).natAbs ≤ days
  | _, _ => true

/-- The tax criterion of `_is_duplicate`: blocks only when both tax amounts are
present and farther than 0.5 apart. -/
def taxMismatch : Option ℚ → Option ℚ → Bool
  | some a, some b => ! isValueClose (some a) (some b) (1 / 2)
  | _, _ => false

/-- `_is_duplicate`: similarity threshold, amount tolerance, date tolerance,
tax tolerance, in the source's order. -/
def isDuplicate (cfg : Config) (current candidate : ReceiptProfile) : Bool :=
  if cfg.sim current.normalized_vendor candidate.normalized_vendor <
      cfg.settings.anomaly_duplicate_vendor_similarity then false
  else if ! isValueClose current.amount candidate.amount
      cfg.settings.anomaly_duplicate_amount_tolerance then false
  else if ! dateWithin current.issue_date candidate.issue_date
      cfg.settings.anomaly_duplicate_date_tolerance_days then false
  else if taxMismatch current.tax_amount candidate.tax_amount then false
  else true

/-- `_remember_profile`: append to the bounded duplicate buffer. -/
def rememberProfile (st : EngineState) (p : ReceiptProfile) : EngineState :=
  { st with duplicate_profiles := dequeAppend DUPLICATE_BUFFER_LIMIT st.duplicate_profiles p }

/-- `_detect_duplicates`: a falsy amount skips matching entirely; otherwise
every buffered profile with a different document id is tested, and the profile
is remembered afterwards in both cases. -/
def detectDuplicates (cfg : Config) (st : EngineState) (p : ReceiptProfile) :
    List String × EngineState :=
  if truthyAmount p = false then ([], rememberProfile st p)
  else
    ((st.duplicate_profiles.filter
        (fun c => (! (c.document_id == p.document_id)) && isDuplicate cfg p c)).map
        (fun c => c.document_id),
      rememberProfile st p)

/-- `statistics.mean`. -/
def listMean (xs : List ℚ) : ℚ := xs.sum / xs.length

/-- Population variance, the square of `statistics.pstdev`. -/
def popVariance (xs : List ℚ) : ℚ :=
  (xs.map (fun x => (x - listMean xs) ^ 2)).sum / xs.length

/-- The flag condition of `_z_score_alert`: fewer than 5 samples never fire;
otherwise `|value - mean| / std > sigma` with `std = pstdev(history) or 1.0`.
`pstdev` is the square root of `popVariance`; since both sides of the
comparison are nonnegative for `sigma ≥ 0`, the condition is expressed by the
equivalent square comparison (the `sigma < 0` disjunct covers configurations
with a negative threshold, where the nonnegative z always exceeds it). -/
def zScoreFires (sigma : ℚ) (history : List ℚ) (value : ℚ) : Bool :=
  if history.length < 5 then false
  else
    let mu := listMean history
    let var := popVariance history
    if var = 0 then decide (sigma < |value - mu|)
    else decide (sigma < 0) || decide (sigma ^ 2 * var < (value - mu) ^ 2)

/-- `_z_score_alert`: one finding carrying the scope label when the z condition
holds. -/
def zScoreAlert (cfg : Config) (history : List ℚ) (value : ℚ) (scope : String) :
    List Finding :=
  if zScoreFires cfg.settings.anomaly_amount_sigma history value then
    [Finding.zScore scope]
  else []

/-- `statistics.median`: middle of the sorted values, or the mean of the two
middle values for an even count. -/
def pyMedian (xs : List ℚ) : ℚ :=
  let sorted := xs.insertionSort (· ≤ ·)
  let n := xs.length
  if n % 2 = 1 then sorted.getD (n / 2) 0
  else (sorted.getD (n / 2 - 1) 0 + sorted.getD (n / 2) 0) / 2

/-- `_mad_alert`: needs at least 8 samples; median absolute deviation scaled by
1.4826, zero MAD replaced by 1.0, threshold 3.5.  All quantities are rational,
so the condition is computed directly. -/
def madAlert (history : List ℚ) (value : ℚ) (vendor : String) : List Finding :=
  if history.length < 8 then []
  else
    let med := pyMedian history
    let deviations := history.map (fun x => |x - med|)
    let mad0 := pyMedian deviations
    let mad := if mad0 = 0 then 1 else mad0
    let score := |value - med| / ((14826 / 10000 : ℚ) * mad)
    if score > 7 / 2 then [Finding.mad (if vendor = "" then "未知供应商" else vendor)]
    else []

/-- `_isolation_forest_alert`: gated on the feature flag, the availability of
the sklearn capability and the minimum sample count; the fitted model itself is
the injected capability. -/
def isolationForestAlert (cfg : Config) (history : List ℚ) (value : ℚ)
    (vendor : String) : Option String :=
  match cfg.mlModel with
  | none => none
  | some model =>
    if ! cfg.settings.enable_anomaly_ml then none
    else if history.length < cfg.settings.anomaly_ml_min_samples then none
    else model history value vendor

/-- The scope label `_run_amount_analyzers` passes for the vendor window. -/
def vendorScopeLabel (vendor : String) : String := "供应商「" ++ vendor ++ "」"

/-- `_run_amount_analyzers`: a missing amount contributes nothing and leaves the
windows untouched; otherwise both history windows are read in their prior
state, the new value is appended to both, and the detectors are evaluated
against the prior values. -/
def runAmountAnalyzers (cfg : Config) (st : EngineState) (p : ReceiptProfile) :
    List Finding × EngineState :=
  match p.amount with
  | none => ([], st)
  | some amount =>
    let vendorKey := if p.normalized_vendor = "" then "unknown" else p.normalized_vendor
    let previousVendor := ((st.vendor_amount_history.lookup vendorKey).getD [])
    let previousGlobal := st.global_amount_history
    let st2 : EngineState :=
      { st with
        vendor_amount_history :=
          assocSet st.vendor_amount_history vendorKey
            (dequeAppend cfg.settings.anomaly_vendor_history_limit previousVendor amount)
        global_amount_history :=
          dequeAppend cfg.settings.anomaly_global_history_limit st.global_amount_history amount }
    (zScoreAlert cfg previousVendor amount (vendorScopeLabel p.vendor) ++
        zScoreAlert cfg previousGlobal amount "全局" ++
        madAlert previousVendor amount p.vendor ++
        (isolationForestAlert cfg previousVendor amount p.vendor).toList.map Finding.ml,
      st2)

/-- `_tax_ratio` (source name `_tax_ratio`): `None` when the amount is missing
or zero or the tax amount is missing. -/
def taxFraction (p : ReceiptProfile) : Option ℚ :=
  match p.amount, p.tax_amount with
  | some a, some t => if a = 0 then none else some (t / a)
  | _, _ => none

/-- `_category_contains`: lowercases `profile.category or payload["category"]
or ""` — raising `AttributeError` when the chosen truthy value is a number —
and tests keyword containment. -/
def categoryContains (p : ReceiptProfile) (payload : Normalized)
    (keywords : List String) : Except PyError Bool := do
  let chosen : Value :=
    match pyOrOpt p.category payload.category with
    | some v => if v.truthy then v else .str ""
    | none => .str ""
  let cat ← pyLower chosen
  .ok (keywords.any (fun k => strContains cat (pyToLower k)))

/-- Rule 1, `tax_gt_total`. -/
def predTaxGtTotal (p : ReceiptProfile) (_ : Normalized) : Except PyError Bool :=
  .ok
    (match p.tax_amount, p.amount with
     | some t, some a => decide (a < t)
     | _, _ => false)

/-- Rule 2, `tax_ratio_high`. -/
def predTaxRatioHigh (upper : ℚ) (p : ReceiptProfile) (_ : Normalized) :
    Except PyError Bool :=
  .ok
    (match taxFraction p with
     | some r => decide (upper < r)
     | none => false)

/-- Rule 3, `tax_ratio_low` (`profile.amount and profile.amount > 200 and …`). -/
def predTaxRatioLow (lower : ℚ) (p : ReceiptProfile) (_ : Normalized) :
    Except PyError Bool :=
  .ok
    ((match p.amount with
      | some a => decide (a ≠ 0) && decide (200 < a)
      | none => false) &&
      (match taxFraction p with
       | some r => decide (r < lower)
       | none => false))

/-- Rule 4, `high_meal_expense`; the category lookup may raise. -/
def predHighMeal (p : ReceiptProfile) (payload : Normalized) :
    Except PyError Bool := do
  let c ← categoryContains p payload ["餐", "meal"]
  .ok (c &&
    (match p.amount with
     | some a => decide (2000 < a)
     | none => false))

/-- `_build_rules`.  The source interpolates the configured percentage bounds
into the second and third messages; the message text shown is the one rendered
from the default settings, and no property below depends on it. -/
def buildRules (cfg : Config) : List RuleDefinition :=
  [{ name := "tax_gt_total"
     message := "税额大于总额，疑似 OCR 解析错误"
     predicate := predTaxGtTotal },
   { name := "tax_ratio_high"
     message := "税率超过 17.0% ，请核对税目"
     predicate := predTaxRatioHigh cfg.settings.anomaly_tax_ratio_upper },
   { name := "tax_ratio_low"
     message := "税率低于 0.0% ，与常规增值税不符"
     predicate := predTaxRatioLow cfg.settings.anomaly_tax_ratio_lower },
   { name := "high_meal_expense"
     message := "餐饮类别单笔超 2000 元，可能需要审批凭证"
     predicate := predHighMeal }]

/-- `_evaluate_rules`: a predicate observed `ok true` appends its rule's
message; a raising predicate is caught and skipped; evaluation always continues
with the remaining rules. -/
def evaluateRules : List RuleDefinition → ReceiptProfile → Normalized → List Finding
  | [], _, _ => []
  | r :: rs, p, payload =>
    match r.predicate p payload with
    | .ok true => Finding.rule r.message :: evaluateRules rs p payload
    | _ => evaluateRules rs p payload

/-- The public `analyze`: build the profile (the only raising step), query and
record duplicates, run the amount analyzers, evaluate the rules, concatenate. -/
def analyze (cfg : Config) (st : EngineState) (documentId : String)
    (normalized : Normalized) :
    Except PyError ((List Finding × List String) × EngineState) :=
  match buildProfile documentId normalized with
  | .error e => .error e
  | .ok profile =>
    let dup := detectDuplicates cfg st profile
    let amt := runAmountAnalyzers cfg dup.2 profile
    let ruleFindings := evaluateRules (buildRules cfg) profile normalized
    .ok ((amt.1 ++ ruleFindings, dup.1), amt.2)

/-- One `analyze` call as a state transition; a raising call (which raises in
`_build_profile`, before any state is mutated) leaves the state unchanged. -/
def analyzeStep (cfg : Config) (st : EngineState) (call : String × Normalized) :
    EngineState :=
  match analyze cfg st call.1 call.2 with
  | .ok r => r.2
  | .error _ => st

/-- Profile constructor for concrete evaluations (vendor given already
normalized, no category). -/
def prof (id nv : String) (date : Option ℤ) (amt tax : Option ℚ) : ReceiptProfile :=
  { document_id := id
    vendor := nv
    normalized_vendor := nv
    issue_date := date
    amount := amt
    tax_amount := tax
    category := none }

/-- Engine state holding exactly the given duplicate buffer. -/
def bufState (ps : List ReceiptProfile) : EngineState :=
  { global_amount_history := [], vendor_amount_history := [], duplicate_profiles := ps }

/-- Input mapping whose only present field is an unparseable amount. -/
def nAbc : Normalized := { total_amount := some (.str "abc") }

/-- The profile `analyze` builds from `nAbc` (default vendor, nothing parsed). -/
def pAbc : ReceiptProfile :=
  { document_id := "D1"
    vendor := "未知供应商"
    normalized_vendor := "未知供应商"
    issue_date := none
    amount := none
    tax_amount := none
    category := none }

/-! ## Helper lemmas -/

theorem dequeAppend_length_le_of_le (maxlen : ℕ) (xs : List α) (x : α)
    (h : xs.length ≤ maxlen) : (dequeAppend maxlen xs x).length ≤ maxlen := by
  have hd : dequeAppend maxlen xs x =
      if maxlen < (xs ++ [x]).length then
        (xs ++ [x]).drop ((xs ++ [x]).length - maxlen)
      else xs ++ [x] := rfl
  rw [hd]
  split <;>
    simp only [List.length_drop, List.length_append, List.length_cons,
      List.length_nil] at * <;>
    omega

theorem assocSet_mem (m : List (String × List ℚ)) (k : String) (v : List ℚ)
    (e : String × List ℚ) (he : e ∈ assocSet m k v) : e ∈ m ∨ e = (k, v) := by
  induction m with
  | nil => simp [assocSet] at he; simp [he]
  | cons hd tl ih =>
    unfold assocSet at he
    split at he
    · rcases List.mem_cons.mp he with h | h
      · right; exact h
      · left; exact List.mem_cons_of_mem _ h
    · rcases List.mem_cons.mp he with h | h
      · left; exact h ▸ List.mem_cons_self _ _
      · rcases ih h with h2 | h2
        · left; exact List.mem_cons_of_mem _ h2
        · right; exact h2

theorem rememberVendor_length_le (lex : Lexicon) (limit : ℕ) (a c : String)
    (h : lex.length ≤ limit) :
    (rememberVendor lex limit a c).length ≤ limit := by
  have hf : (lex.filter (fun e => decide (e.1 ≠ a))).length ≤ lex.length :=
    List.length_filter_le _ _
  have hd : rememberVendor lex limit a c =
      if limit < (lex.filter (fun e => decide (e.1 ≠ a)) ++ [(a, c)]).length then
        (lex.filter (fun e => decide (e.1 ≠ a)) ++ [(a, c)]).drop 1
      else lex.filter (fun e => decide (e.1 ≠ a)) ++ [(a, c)] := rfl
  rw [hd]
  split <;>
    simp only [List.length_drop, List.length_append, List.length_cons,
      List.length_nil] at * <;>
    omega

theorem isValueClose_eq_true_iff (a b : Option ℚ) (tol : ℚ) :
    isValueClose a b tol = true ↔ ∃ x y, a = some x ∧ b = some y ∧ |x - y| ≤ tol := by
  cases a <;> cases b <;> simp [isValueClose]

theorem isValueClose_symm (a b : Option ℚ) (tol : ℚ) :
    isValueClose a b tol = isValueClose b a tol := by
  cases a <;> cases b <;> simp [isValueClose, abs_sub_comm]

theorem dateWithin_eq_true_iff (a b : Option ℤ) (days : ℕ) :
    dateWithin a b days = true ↔
      ∀ x y, a = some x → b = some y → (Int.fdiv (x - y) 86400).natAbs ≤ days := by
  cases a <;> cases b <;> simp [dateWithin]

theorem taxMismatch_eq_false_iff (a b : Option ℚ) :
    taxMismatch a b = false ↔
      ∀ x y, a = some x → b = some y → |x - y| ≤ 1 / 2 := by
  cases a <;> cases b <;> simp [taxMismatch, isValueClose]

theorem taxMismatch_symm (a b : Option ℚ) : taxMismatch a b = taxMismatch b a := by
  cases a <;> cases b <;> simp [taxMismatch, isValueClose, abs_sub_comm]

theorem truthyAmount_eq_true_iff (p : ReceiptProfile) :
    truthyAmount p = true ↔ ∃ a, p.amount = some a ∧ a ≠ 0 := by
  cases h : p.amount <;> simp [truthyAmount, h]

theorem isDuplicate_eq_true_iff (cfg : Config) (A B : ReceiptProfile) :
    isDuplicate cfg A B = true ↔
      (cfg.settings.anomaly_duplicate_vendor_similarity ≤
          cfg.sim A.normalized_vendor B.normalized_vendor ∧
        isValueClose A.amount B.amount cfg.settings.anomaly_duplicate_amount_tolerance = true ∧
        dateWithin A.issue_date B.issue_date
          cfg.settings.anomaly_duplicate_date_tolerance_days = true ∧
        taxMismatch A.tax_amount B.tax_amount = false) := by
  by_cases h1 : cfg.sim A.normalized_vendor B.normalized_vendor <
      cfg.settings.anomaly_duplicate_vendor_similarity
  · simp [isDuplicate, h1, not_le.mpr h1]
  · cases h2 : isValueClose A.amount B.amount cfg.settings.anomaly_duplicate_amount_tolerance
    · simp [isDuplicate, h1, h2]
    · cases h3 : dateWithin A.issue_date B.issue_date
          cfg.settings.anomaly_duplicate_date_tolerance_days
      · simp [isDuplicate, h1, h2, h3]
      · cases h4 : taxMismatch A.tax_amount B.tax_amount
        · simp [isDuplicate, h1, h2, h3, h4, not_lt.mp h1]
        · simp [isDuplicate, h1, h2, h3, h4]

/-! ## Claim theorems -/

/-- C1 (code bug): the claim says `analyze` returns a result and raises no
exception for every field mapping with string-or-number values, but the code
raises: a truthy numeric `vendor_name` reaches `.strip()` (`AttributeError`),
and a truthy numeric `issue_date` reaches `strptime` whose `TypeError` is not
caught by the `except ValueError` handler. -/
theorem analyze_raises_on_numeric_fields :
    analyze testCfg initState "D1" { vendor_name := some (.num 1) } =
        .error .attributeError ∧
      analyze testCfg initState "D2" { issue_date := some (.num 20240101) } =
        .error .typeError := by
  exact ⟨rfl, rfl⟩

/-- C4 (counterexample): the claim maps the halfwidth-yen string "¥1234.56" to
1234.56, but both `_to_float` implementations strip only the fullwidth `￥`
(U+FFE5); the halfwidth `¥` (U+00A5) survives sanitisation and `float()`
rejects it, yielding `None`. -/
theorem halfwidth_yen_not_stripped :
    normToFloat (some (.str "¥1234.56")) = none ∧
      anomToFloat (some (.str "¥1234.56")) = none ∧
      (none : Option ℚ) ≠ some (123456 / 100) := by
  refine ⟨by decide, by decide, by decide⟩

/-- C4 (amended): the amount normalizer maps "1,234.56" to 1234.56, the
fullwidth "￥1234.56" to 1234.56, "(1234.56)" to −1234.56, "abc" to `None`,
and the halfwidth "¥1234.56" to `None`, in both `_to_float` implementations,
never raising (both are total functions). -/
theorem amount_normalizer_eval :
    normToFloat (some (.str "1,234.56")) = some (123456 / 100) ∧
      anomToFloat (some (.str "1,234.56")) = some (123456 / 100) ∧
      normToFloat (some (.str "￥1234.56")) = some (123456 / 100) ∧
      anomToFloat (some (.str "￥1234.56")) = some (123456 / 100) ∧
      normToFloat (some (.str "(1234.56)")) = some (-(123456 / 100)) ∧
      anomToFloat (some (.str "(1234.56)")) = some (-(123456 / 100)) ∧
      normToFloat (some (.str "abc")) = none ∧
      anomToFloat (some (.str "abc")) = none ∧
      normToFloat (some (.str "¥1234.56")) = none ∧
      anomToFloat (some (.str "¥1234.56")) = none := by
  have hpos : (123456 / 100 : ℚ) = Rat.divInt 123456 100 := by
    rw [Rat.divInt_eq_div]; norm_num
  have hneg : (-(123456 / 100) : ℚ) = Rat.divInt (-123456) 100 := by
    rw [Rat.divInt_eq_div]; norm_num
  refine ⟨by rw [hpos]; decide, by rw [hpos]; decide, by rw [hpos]; decide,
    by rw [hpos]; decide, by rw [hneg]; decide, by rw [hneg]; decide,
    by decide, by decide, by decide, by decide⟩

/-- C5 (counterexample): the claim says `normalizeDate` returns the original
input verbatim when every parse fails, but the separator rewriting happens
first and the rewritten string is what is returned: "abc/def" comes back as
"abc-def". -/
theorem normalize_date_rewrites_input :
    normalizeDate (some "abc/def") = some "abc-def" ∧
      ("abc-def" : String) ≠ "abc/def" := by
  exact ⟨by decide, by decide⟩

/-- C5 (amended): on a nonempty input string on which every date parse of the
rewritten string fails, `normalizeDate` returns the rewritten input (`年`/`月`
to `-`, `日` removed, `.` and `/` to `-`) verbatim — which equals the original
input only when the input contains none of those characters. -/
theorem normalize_date_failure_returns_transformed (s : String) (h1 : s ≠ "")
    (h2 : normDateParse (transformDateString s) = none) :
    normalizeDate (some s) = some (transformDateString s) := by
  simp [normalizeDate, h1, h2]

/-- C5 (witness): the amended statement applied at "abc/def". -/
theorem normalize_date_failure_returns_transformed_witness :
    normalizeDate (some "abc/def") = some (transformDateString "abc/def") :=
  normalize_date_failure_returns_transformed "abc/def" (by decide) (by decide)

/-- C8 (confirmed): rule evaluation returns exactly the messages of the rules
whose predicate evaluates to `ok true` — a raising predicate contributes no
finding and never stops the remaining rules — in rule-list order. -/
theorem rule_engine_exception_isolation (rules : List RuleDefinition)
    (p : ReceiptProfile) (payload : Normalized) :
    evaluateRules rules p payload =
      (rules.filter
          (fun r =>
            match r.predicate p payload with
            | .ok true => true
            | _ => false)).map
        (fun r => Finding.rule r.message) := by
  induction rules with
  | nil => rfl
  | cons r rs ih =>
    cases hp : r.predicate p payload with
    | error e => simp [evaluateRules, hp, List.filter_cons, ih]
    | ok b =>
      cases b <;> simp [evaluateRules, hp, List.filter_cons, ih]

/-- C8 (witness): the filter/map characterisation applied to the engine's own
rule list on a profile whose tax exceeds its amount — only `tax_gt_total`
fires. -/
theorem rule_engine_exception_isolation_witness :
    evaluateRules (buildRules testCfg) (prof "D" "acme" none (some 100) (some 200)) {} =
      ((buildRules testCfg).filter
          (fun r =>
            match r.predicate (prof "D" "acme" none (some 100) (some 200)) {} with
            | .ok true => true
            | _ => false)).map
        (fun r => Finding.rule r.message) :=
  rule_engine_exception_isolation (buildRules testCfg)
    (prof "D" "acme" none (some 100) (some 200)) {}

/-- C6 (counterexample): the claim says a cache hit moves the matched entry to
the most-recent position, but `_canonicalize_vendor` returns the winner without
touching the lexicon: querying "a" against the cache `[a, b]` (oldest first)
leaves the order `[a, b]`, not the `[b, a]` the claim requires. -/
theorem cache_hit_does_not_touch :
    (canonicalizeVendor simEq ⟨[("a", "a"), ("b", "b")], 2000⟩ (some "a")).2.vendor_lexicon =
        [("a", "a"), ("b", "b")] ∧
      ([("a", "a"), ("b", "b")] : Lexicon) ≠ [("b", "b"), ("a", "a")] := by
  exact ⟨by decide, by decide⟩

/-- C6 (amended): on a cache hit (best similarity strictly above 90) the cache
is left entirely unchanged — the matched entry is not moved; on a miss the
vendor is registered as the most-recent entry, and when the capacity is
exceeded the oldest entry is evicted. -/
theorem vendor_cache_hit_unchanged_miss_registers :
    (∀ (sim : String → String → ℚ) (st : NormState) (vendor : Option String)
        (v : String) (ws : String × ℚ),
      sanitizeVendor vendor = some v →
      maxByScore (st.vendor_lexicon.map (fun e => (e.2, sim v e.1))) = some ws →
      90 < ws.2 →
      canonicalizeVendor sim st vendor = (some ws.1, st)) ∧
    (∀ (sim : String → String → ℚ) (st : NormState) (vendor : Option String)
        (v : String),
      sanitizeVendor vendor = some v →
      (∀ ws, maxByScore (st.vendor_lexicon.map (fun e => (e.2, sim v e.1))) = some ws →
        ws.2 ≤ 90) →
      (∀ e ∈ st.vendor_lexicon, e.1 ≠ v) →
      canonicalizeVendor sim st vendor =
        (some v,
          { st with
            vendor_lexicon :=
              if st.vendor_cache_limit < st.vendor_lexicon.length + 1 then
                (st.vendor_lexicon ++ [(v, v)]).drop 1
              else st.vendor_lexicon ++ [(v, v)] })) := by
  constructor
  · intro sim st vendor v ws hsan hmax h90
    simp only [canonicalizeVendor, hsan, hmax]
    rw [if_pos h90]
  · intro sim st vendor v hsan hmaxle hfresh
    have hfilter : st.vendor_lexicon.filter (fun e => decide (e.1 ≠ v)) =
        st.vendor_lexicon :=
      List.filter_eq_self.mpr (fun e he => by simpa using hfresh e he)
    have hrem : rememberVendor st.vendor_lexicon st.vendor_cache_limit v v =
        if st.vendor_cache_limit < st.vendor_lexicon.length + 1 then
          (st.vendor_lexicon ++ [(v, v)]).drop 1
        else st.vendor_lexicon ++ [(v, v)] := by
      unfold rememberVendor
      rw [hfilter]
      simp [List.length_append]
    simp only [canonicalizeVendor, hsan]
    cases hmax : maxByScore (st.vendor_lexicon.map (fun e => (e.2, sim v e.1))) with
    | none => simp only [hmax, hrem]
    | some ws =>
      simp only [hmax]
      rw [if_neg (not_lt.mpr (hmaxle ws hmax)), hrem]

/-- C6 (witness): a hit at similarity 100 leaves a one-entry cache unchanged,
by the amended hit clause. -/
theorem vendor_cache_hit_unchanged_miss_registers_witness :
    canonicalizeVendor simEq ⟨[("a", "a")], 2000⟩ (some "a") =
      (some "a", ⟨[("a", "a")], 2000⟩) :=
  vendor_cache_hit_unchanged_miss_registers.1 simEq ⟨[("a", "a")], 2000⟩ (some "a")
    "a" ("a", 100) (by decide) (by decide) (by decide)

/-- C2 (counterexample): all four match criteria of the claim hold for two
zero-amount profiles with identical canonical vendors (similarity 100 ≥ 88,
both amounts present and equal, no dates, no taxes), yet the buffered profile
is not flagged: `_detect_duplicates` skips matching entirely when the analyzed
profile's amount is falsy (`None` or `0`). -/
theorem zero_amount_never_flagged :
    (88 : ℚ) ≤ simEq (prof "A" "acme" none (some 0) none).normalized_vendor
        (prof "B" "acme" none (some 0) none).normalized_vendor ∧
      (prof "A" "acme" none (some 0) none).amount = some 0 ∧
      (prof "B" "acme" none (some 0) none).amount = some 0 ∧
      |(0 : ℚ) - 0| ≤ 1 / 2 ∧
      (detectDuplicates testCfg (bufState [prof "B" "acme" none (some 0) none])
          (prof "A" "acme" none (some 0) none)).1 = [] := by
  refine ⟨by decide, rfl, rfl, by norm_num, by decide⟩

/-- C2 (amended): for an analyzed profile A and a buffered profile B with a
distinct document id (ids unique in the buffer), B's id appears in the returned
duplicates iff A's amount is present **and nonzero** (the code's additional
falsy-amount gate), the vendor similarity is at least 88, both amounts are
present within 0.5, the Python day difference `abs((A.date - B.date).days)`
(floor division by one day) is at most 3 when both dates are present, and the
tax amounts are within 0.5 when both are present. -/
theorem duplicates_membership_iff (sim : String → String → ℚ)
    (ml : Option (List ℚ → ℚ → String → Option String)) (A B : ReceiptProfile)
    (g : List ℚ) (vh : List (String × List ℚ)) (buffer : List ReceiptProfile)
    (hB : B ∈ buffer)
    (huniq : ∀ C ∈ buffer, C.document_id = B.document_id → C = B)
    (hne : B.document_id ≠ A.document_id) :
    B.document_id ∈ (detectDuplicates (cfgOf sim ml) ⟨g, vh, buffer⟩ A).1 ↔
      ((∃ a, A.amount = some a ∧ a ≠ 0) ∧
        88 ≤ sim A.normalized_vendor B.normalized_vendor ∧
        (∃ a b, A.amount = some a ∧ B.amount = some b ∧ |a - b| ≤ 1 / 2) ∧
        (∀ x y, A.issue_date = some x → B.issue_date = some y →
          (Int.fdiv (x - y) 86400).natAbs ≤ 3) ∧
        (∀ ta tb, A.tax_amount = some ta → B.tax_amount = some tb →
          |ta - tb| ≤ 1 / 2)) := by
  have hs1 : (cfgOf sim ml).settings.anomaly_duplicate_vendor_similarity = 88 := rfl
  have hs2 : (cfgOf sim ml).settings.anomaly_duplicate_amount_tolerance = 1 / 2 := rfl
  have hs3 : (cfgOf sim ml).settings.anomaly_duplicate_date_tolerance_days = 3 := rfl
  cases htr : truthyAmount A with
  | false =>
    have hnoA : ¬ ∃ a, A.amount = some a ∧ a ≠ 0 := by
      rw [← truthyAmount_eq_true_iff, htr]
      simp
    simp [detectDuplicates, htr, hnoA]
  | true =>
    have hA := (truthyAmount_eq_true_iff A).mp htr
    have hlist : (detectDuplicates (cfgOf sim ml) ⟨g, vh, buffer⟩ A).1 =
        (buffer.filter
            (fun c => (! (c.document_id == A.document_id)) &&
              isDuplicate (cfgOf sim ml) A c)).map
          (fun c => c.document_id) := by
      simp [detectDuplicates, htr]
    rw [hlist, List.mem_map]
    constructor
    · rintro ⟨c, hcmem, hcid⟩
      rw [List.mem_filter, Bool.and_eq_true] at hcmem
      obtain ⟨hcbuf, _, hcdup⟩ := hcmem
      have hcB : c = B := huniq c hcbuf hcid
      subst hcB
      have hd := (isDuplicate_eq_true_iff _ A c).mp hcdup
      refine ⟨hA, hs1 ▸ hd.1, ?_, ?_, ?_⟩
      · exact (isValueClose_eq_true_iff _ _ _).mp (hs2 ▸ hd.2.1)
      · exact (dateWithin_eq_true_iff _ _ _).mp (hs3 ▸ hd.2.2.1)
      · exact (taxMismatch_eq_false_iff _ _).mp hd.2.2.2
    · rintro ⟨_, hsim, hamt, hdate, htax⟩
      refine ⟨B, ?_, rfl⟩
      rw [List.mem_filter, Bool.and_eq_true]
      refine ⟨hB, ?_, ?_⟩
      · simp [hne]
      · rw [isDuplicate_eq_true_iff]
        refine ⟨hs1 ▸ hsim, ?_, ?_, ?_⟩
        · exact hs2 ▸ (isValueClose_eq_true_iff _ _ _).mpr hamt
        · exact hs3 ▸ (dateWithin_eq_true_iff _ _ _).mpr hdate
        · exact (taxMismatch_eq_false_iff _ _).mpr htax

/-- C2 (witness): the amended criterion applied positively — amounts 100 and
100.3 within tolerance, identical vendors, no dates, no taxes — flags the
buffered document. -/
theorem duplicates_membership_iff_witness :
    "B" ∈ (detectDuplicates (cfgOf simEq none)
        ⟨[], [], [prof "B" "acme" none (some (1003 / 10)) none]⟩
        (prof "A" "acme" none (some 100) none)).1 :=
  (duplicates_membership_iff simEq none (prof "A" "acme" none (some 100) none)
      (prof "B" "acme" none (some (1003 / 10)) none) [] []
      [prof "B" "acme" none (some (1003 / 10)) none]
      (List.mem_singleton.mpr rfl)
      (fun C hC _ => List.mem_singleton.mp hC)
      (by decide)).mpr
    ⟨⟨100, rfl, by norm_num⟩, by decide,
      ⟨100, 1003 / 10, rfl, rfl, by rw [abs_le]; constructor <;> norm_num⟩,
      fun x y hx => by simp [prof] at hx,
      fun ta tb hta => by simp [prof] at hta⟩

theorem fdiv_day_symm (x y : ℤ) (hx : x % 86400 = 0) (hy : y % 86400 = 0) :
    (Int.fdiv (y - x) 86400).natAbs = (Int.fdiv (x - y) 86400).natAbs := by
  obtain ⟨k, hk⟩ := Int.dvd_of_emod_eq_zero hx
  obtain ⟨j, hj⟩ := Int.dvd_of_emod_eq_zero hy
  subst hk hj
  rw [← Int.mul_sub, ← Int.mul_sub,
    Int.mul_fdiv_cancel_left _ (by norm_num : (86400 : ℤ) ≠ 0),
    Int.mul_fdiv_cancel_left _ (by norm_num : (86400 : ℤ) ≠ 0),
    ← Int.natAbs_neg (j - k), neg_sub]

theorem dateWithin_symm_of (a b : Option ℤ) (d : ℕ)
    (ha : ∀ x, a = some x → x % 86400 = 0) (hb : ∀ y, b = some y → y % 86400 = 0)
    (h : dateWithin a b d = true) : dateWithin b a d = true := by
  cases a with
  | none => cases b <;> simp [dateWithin]
  | some x =>
    cases b with
    | none => simp [dateWithin]
    | some y =>
      simp only [dateWithin, decide_eq_true_eq] at h ⊢
      rw [fdiv_day_symm x y (ha x rfl) (hb y rfl)]
      exact h

theorem isDuplicate_symm_of (cfg : Config) (A B : ReceiptProfile)
    (hsim : ∀ a b, cfg.sim a b = cfg.sim b a)
    (hA : ∀ x, A.issue_date = some x → x % 86400 = 0)
    (hB : ∀ y, B.issue_date = some y → y % 86400 = 0)
    (h : isDuplicate cfg A B = true) : isDuplicate cfg B A = true := by
  rw [isDuplicate_eq_true_iff] at h ⊢
  obtain ⟨h1, h2, h3, h4⟩ := h
  exact ⟨hsim B.normalized_vendor A.normalized_vendor ▸ h1,
    isValueClose_symm A.amount B.amount _ ▸ h2,
    dateWithin_symm_of A.issue_date B.issue_date _ hA hB h3,
    taxMismatch_symm A.tax_amount B.tax_amount ▸ h4⟩

/-- C7 (counterexample): the duplicate match is not symmetric.  With equal
vendors and amounts, A dated 3 days and 1 second after B, `analyze`-ing A with
B buffered flags B (`(A-B).days = 3 ≤ 3`), but analyzing B with A buffered does
not flag A (`(B-A).days = -4`, absolute value 4 > 3) — `timedelta.days` floors,
so the day count is asymmetric for timestamps with a time-of-day component. -/
theorem duplicate_match_asymmetric :
    "B" ∈ (detectDuplicates testCfg
        (bufState [prof "B" "acme" (some 0) (some 100) none])
        (prof "A" "acme" (some 259201) (some 100) none)).1 ∧
      "A" ∉ (detectDuplicates testCfg
        (bufState [prof "A" "acme" (some 259201) (some 100) none])
        (prof "B" "acme" (some 0) (some 100) none)).1 := by
  constructor
  · have hdup : isDuplicate testCfg (prof "A" "acme" (some 259201) (some 100) none)
        (prof "B" "acme" (some 0) (some 100) none) = true := by
      rw [isDuplicate_eq_true_iff]
      refine ⟨by decide, ?_, by decide, by decide⟩
      rw [show testCfg.settings.anomaly_duplicate_amount_tolerance = 1 / 2 from rfl]
      simp only [prof, isValueClose, decide_eq_true_eq]
      norm_num
    have htr : truthyAmount (prof "A" "acme" (some 259201) (some 100) none) = true := by
      decide
    simp only [detectDuplicates, htr, Bool.true_eq_false, if_false, bufState,
      List.mem_map, List.mem_filter, Bool.and_eq_true]
    exact ⟨_, ⟨List.mem_singleton.mpr rfl, by decide, hdup⟩, rfl⟩
  · intro hmem
    have htr : truthyAmount (prof "B" "acme" (some 0) (some 100) none) = true := by
      decide
    have hdup : isDuplicate testCfg (prof "B" "acme" (some 0) (some 100) none)
        (prof "A" "acme" (some 259201) (some 100) none) = false := by
      cases hid : isDuplicate testCfg (prof "B" "acme" (some 0) (some 100) none)
          (prof "A" "acme" (some 259201) (some 100) none) with
      | false => rfl
      | true => exact absurd ((isDuplicate_eq_true_iff _ _ _).mp hid).2.2.1 (by decide)
    simp [detectDuplicates, htr, bufState, hdup] at hmem

/-- C7 (amended): the duplicate match relation is symmetric provided the
similarity capability is symmetric (as `token_set_ratio` is), the
second-analyzed profile's amount is also truthy (present and nonzero), and
every present issue date is a midnight timestamp (no time-of-day component) —
the counterexample shows the time-of-day and zero-amount cases genuinely break
symmetry. -/
theorem duplicate_match_symmetric_for_midnight_dates (cfg : Config)
    (A B : ReceiptProfile) (g g2 : List ℚ) (vh vh2 : List (String × List ℚ))
    (hsim : ∀ a b, cfg.sim a b = cfg.sim b a)
    (htrB : truthyAmount B = true)
    (hA : ∀ x, A.issue_date = some x → x % 86400 = 0)
    (hB : ∀ y, B.issue_date = some y → y % 86400 = 0)
    (hne : A.document_id ≠ B.document_id)
    (hmem : B.document_id ∈ (detectDuplicates cfg ⟨g, vh, [B]⟩ A).1) :
    A.document_id ∈ (detectDuplicates cfg ⟨g2, vh2, [A]⟩ B).1 := by
  cases htrA : truthyAmount A with
  | false => simp [detectDuplicates, htrA] at hmem
  | true =>
    simp only [detectDuplicates, htrA, Bool.true_eq_false, if_false, List.mem_map,
      List.mem_filter, Bool.and_eq_true] at hmem
    obtain ⟨c, ⟨hcmem, _, hcdup⟩, _⟩ := hmem
    rw [List.mem_singleton] at hcmem
    rw [hcmem] at hcdup
    have hdup2 : isDuplicate cfg B A = true := isDuplicate_symm_of cfg A B hsim hA hB hcdup
    simp only [detectDuplicates, htrB, Bool.true_eq_false, if_false, List.mem_map,
      List.mem_filter, Bool.and_eq_true]
    refine ⟨A, ⟨List.mem_singleton.mpr rfl, ?_, hdup2⟩, rfl⟩
    simp [hne]

/-- C7 (witness): symmetry applied at two midnight-dated profiles one day
apart with equal amounts. -/
theorem duplicate_match_symmetric_witness :
    "A" ∈ (detectDuplicates testCfg
        ⟨[], [], [prof "A" "acme" (some 0) (some 100) none]⟩
        (prof "B" "acme" (some 86400) (some 100) none)).1 := by
  have hmem : "B" ∈ (detectDuplicates testCfg
      ⟨[], [], [prof "B" "acme" (some 86400) (some 100) none]⟩
      (prof "A" "acme" (some 0) (some 100) none)).1 := by
    have hdup : isDuplicate testCfg (prof "A" "acme" (some 0) (some 100) none)
        (prof "B" "acme" (some 86400) (some 100) none) = true := by
      rw [isDuplicate_eq_true_iff]
      refine ⟨by decide, ?_, by decide, by decide⟩
      rw [show testCfg.settings.anomaly_duplicate_amount_tolerance = 1 / 2 from rfl]
      simp only [prof, isValueClose, decide_eq_true_eq]
      norm_num
    have htr : truthyAmount (prof "A" "acme" (some 0) (some 100) none) = true := by
      decide
    simp only [detectDuplicates, htr, Bool.true_eq_false, if_false,
      List.mem_map, List.mem_filter, Bool.and_eq_true]
    exact ⟨_, ⟨List.mem_singleton.mpr rfl, by decide, hdup⟩, rfl⟩
  exact duplicate_match_symmetric_for_midnight_dates testCfg
    (prof "A" "acme" (some 0) (some 100) none)
    (prof "B" "acme" (some 86400) (some 100) none) [] [] [] []
    (fun a b => by
      by_cases h : a = b
      · simp [testCfg, cfgOf, simEq, h]
      · simp [testCfg, cfgOf, simEq, h, Ne.symm h])
    (by decide)
    (fun x hx => by simp only [prof] at hx; injection hx with h; omega)
    (fun y hy => by simp only [prof] at hy; injection hy with h; omega)
    (by decide) hmem

theorem popVariance_nonneg (xs : List ℚ) : 0 ≤ popVariance xs := by
  unfold popVariance
  apply div_nonneg _ (by positivity)
  apply List.sum_nonneg
  intro x hx
  obtain ⟨y, _, rfl⟩ := List.mem_map.mp hx
  positivity

theorem listMean_replicate_five (v : ℚ) : listMean (List.replicate 5 v) = v := by
  simp only [listMean, List.sum_replicate, List.length_replicate, nsmul_eq_mul]
  norm_num

theorem popVariance_replicate_five (v : ℚ) : popVariance (List.replicate 5 v) = 0 := by
  unfold popVariance
  rw [listMean_replicate_five, List.map_replicate]
  simp

theorem zScoreFires_iff_real (hist : List ℚ) (v : ℚ) (h5 : 5 ≤ hist.length) :
    zScoreFires (5 / 2) hist v = true ↔
      (5 / 2 : ℝ) <
        ((|v - listMean hist| : ℚ) : ℝ) /
          (if Real.sqrt ((popVariance hist : ℚ) : ℝ) = 0 then 1
           else Real.sqrt ((popVariance hist : ℚ) : ℝ)) := by
  have hlen : ¬ hist.length < 5 := not_lt.mpr h5
  have hvar0 : (0 : ℚ) ≤ popVariance hist := popVariance_nonneg hist
  have hvarR : (0 : ℝ) ≤ ((popVariance hist : ℚ) : ℝ) := by exact_mod_cast hvar0
  unfold zScoreFires
  rw [if_neg hlen]
  by_cases hv : popVariance hist = 0
  · have hs : Real.sqrt ((popVariance hist : ℚ) : ℝ) = 0 := by
      rw [hv]
      norm_num
    rw [if_pos hv, hs, if_pos rfl, div_one, decide_eq_true_eq,
      show (5 / 2 : ℝ) = ((5 / 2 : ℚ) : ℝ) by norm_num, Rat.cast_lt]
  · have hvpos : (0 : ℚ) < popVariance hist := lt_of_le_of_ne hvar0 (Ne.symm hv)
    have hvRpos : (0 : ℝ) < ((popVariance hist : ℚ) : ℝ) := by exact_mod_cast hvpos
    have hspos : 0 < Real.sqrt ((popVariance hist : ℚ) : ℝ) := Real.sqrt_pos.mpr hvRpos
    have hs2 : Real.sqrt ((popVariance hist : ℚ) : ℝ) ^ 2 = ((popVariance hist : ℚ) : ℝ) :=
      Real.sq_sqrt hvarR
    rw [if_neg hv, if_neg (ne_of_gt hspos), lt_div_iff₀ hspos]
    have hq : ((decide ((5 / 2 : ℚ) < 0) || decide ((5 / 2 : ℚ) ^ 2 * popVariance hist <
        (v - listMean hist) ^ 2)) = true) ↔
        (5 / 2 : ℚ) ^ 2 * popVariance hist < (v - listMean hist) ^ 2 := by
      simp [show ¬ ((5 / 2 : ℚ) < 0) by norm_num]
    rw [hq]
    have hDd : ((|v - listMean hist| : ℚ) : ℝ) = |((v - listMean hist : ℚ) : ℝ)| := by
      push_cast
      ring_nf
    have hD0 : (0 : ℝ) ≤ ((|v - listMean hist| : ℚ) : ℝ) := hDd ▸ abs_nonneg _
    have hiff : ((5 / 2 : ℚ) ^ 2 * popVariance hist < (v - listMean hist) ^ 2) ↔
        ((5 / 2 : ℝ) ^ 2 * ((popVariance hist : ℚ) : ℝ) <
          ((|v - listMean hist| : ℚ) : ℝ) ^ 2) := by
      rw [hDd, sq_abs,
        show ((5 : ℝ) / 2) ^ 2 * ((popVariance hist : ℚ) : ℝ) =
          (((5 / 2 : ℚ) ^ 2 * popVariance hist : ℚ) : ℝ) by push_cast; ring,
        show (((v - listMean hist : ℚ) : ℝ)) ^ 2 =
          (((v - listMean hist) ^ 2 : ℚ) : ℝ) by push_cast; ring]
      exact Rat.cast_lt.symm
    rw [hiff]
    constructor
    · intro h
      nlinarith [hs2, hspos, hD0]
    · intro h
      nlinarith [hs2, hspos, hD0, sq_nonneg (((|v - listMean hist| : ℚ) : ℝ) +
        5 / 2 * Real.sqrt ((popVariance hist : ℚ) : ℝ))]

/-- C3 (confirmed): the z-score detector (i) never fires on fewer than 5 prior
samples; (ii) fires after exactly 5 identical prior values `v` on the value
`v + 100` (the prior standard deviation is 0, replaced by 1); (iii) with at
least 5 prior samples fires exactly when `|value − mean| / std > 2.5`, where
mean is the population mean, std the real square root of the population
variance of the prior samples only, and a zero std is replaced by 1; and
(iv) inside `_run_amount_analyzers` it is evaluated once against the
vendor-scoped window and once against the global window, both in their state
prior to appending the new value, which is appended to both windows
afterwards. -/
theorem zscore_detector_spec :
    (∀ (sim : String → String → ℚ) (ml : Option (List ℚ → ℚ → String → Option String))
        (hist : List ℚ) (v : ℚ) (scope : String),
      hist.length < 5 → zScoreAlert (cfgOf sim ml) hist v scope = []) ∧
    (∀ (sim : String → String → ℚ) (ml : Option (List ℚ → ℚ → String → Option String))
        (v : ℚ) (scope : String),
      zScoreAlert (cfgOf sim ml) (List.replicate 5 v) (v + 100) scope =
        [Finding.zScore scope]) ∧
    (∀ (sim : String → String → ℚ) (ml : Option (List ℚ → ℚ → String → Option String))
        (hist : List ℚ) (v : ℚ) (scope : String),
      5 ≤ hist.length →
      (zScoreAlert (cfgOf sim ml) hist v scope = [Finding.zScore scope] ↔
        (5 / 2 : ℝ) <
          ((|v - listMean hist| : ℚ) : ℝ) /
            (if Real.sqrt ((popVariance hist : ℚ) : ℝ) = 0 then 1
             else Real.sqrt ((popVariance hist : ℚ) : ℝ)))) ∧
    (∀ (sim : String → String → ℚ) (ml : Option (List ℚ → ℚ → String → Option String))
        (st : EngineState) (p : ReceiptProfile) (a : ℚ),
      p.amount = some a →
      (runAmountAnalyzers (cfgOf sim ml) st p).1 =
          zScoreAlert (cfgOf sim ml)
              ((st.vendor_amount_history.lookup
                  (if p.normalized_vendor = "" then "unknown"
                   else p.normalized_vendor)).getD [])
              a (vendorScopeLabel p.vendor) ++
            zScoreAlert (cfgOf sim ml) st.global_amount_history a "全局" ++
            madAlert
              ((st.vendor_amount_history.lookup
                  (if p.normalized_vendor = "" then "unknown"
                   else p.normalized_vendor)).getD [])
              a p.vendor ++
            (isolationForestAlert (cfgOf sim ml)
                ((st.vendor_amount_history.lookup
                    (if p.normalized_vendor = "" then "unknown"
                     else p.normalized_vendor)).getD [])
                a p.vendor).toList.map Finding.ml ∧
        (runAmountAnalyzers (cfgOf sim ml) st p).2.global_amount_history =
          dequeAppend 500 st.global_amount_history a ∧
        (runAmountAnalyzers (cfgOf sim ml) st p).2.vendor_amount_history =
          assocSet st.vendor_amount_history
            (if p.normalized_vendor = "" then "unknown" else p.normalized_vendor)
            (dequeAppend 100
              ((st.vendor_amount_history.lookup
                  (if p.normalized_vendor = "" then "unknown"
                   else p.normalized_vendor)).getD [])
              a)) := by
  refine ⟨?_, ?_, ?_, ?_⟩
  · intro sim ml hist v scope h
    simp [zScoreAlert, zScoreFires, h]
  · intro sim ml v scope
    have hm := listMean_replicate_five v
    have hv := popVariance_replicate_five v
    have hfire : zScoreFires ((cfgOf sim ml).settings.anomaly_amount_sigma)
        (List.replicate 5 v) (v + 100) = true := by
      rw [show (cfgOf sim ml).settings.anomaly_amount_sigma = 5 / 2 from rfl]
      unfold zScoreFires
      rw [if_neg (by simp), hm, hv, if_pos rfl, decide_eq_true_eq]
      have : v + 100 - v = 100 := by ring
      rw [this]
      rw [show |(100 : ℚ)| = 100 from abs_of_nonneg (by norm_num)]
      norm_num
    simp only [zScoreAlert]
    rw [if_pos hfire]
  · intro sim ml hist v scope h5
    have hcore := zScoreFires_iff_real hist v h5
    rw [show zScoreAlert (cfgOf sim ml) hist v scope =
        (if zScoreFires (5 / 2) hist v = true then [Finding.zScore scope] else [])
      from rfl]
    constructor
    · intro h
      by_cases hf : zScoreFires (5 / 2) hist v = true
      · exact hcore.mp hf
      · rw [if_neg hf] at h
        exact absurd h (by simp)
    · intro h
      rw [if_pos (hcore.mpr h)]
  · intro sim ml st p a hp
    simp [runAmountAnalyzers, hp]
    exact ⟨rfl, rfl⟩

/-- C3 (witness): the fewer-than-5-samples clause applied at a two-element
history and an extreme value. -/
theorem zscore_detector_spec_witness :
    zScoreAlert (cfgOf simEq none) [1, 2] 1000 "全局" = [] :=
  zscore_detector_spec.1 simEq none [1, 2] 1000 "全局" (by norm_num)

theorem lookup_getD_length_le (m : List (String × List ℚ)) (k : String) (bound : ℕ)
    (h : ∀ e ∈ m, e.2.length ≤ bound) : ((m.lookup k).getD []).length ≤ bound := by
  induction m with
  | nil => simp [List.lookup]
  | cons e es ih =>
    by_cases hk : k == e.1
    · simp only [List.lookup, hk, Option.getD_some]
      exact h e (List.mem_cons_self _ _)
    · have hkf : (k == e.1) = false := by simpa using hk
      simp only [List.lookup, hkf]
      exact ih (fun e2 he2 => h e2 (List.mem_cons_of_mem _ he2))

theorem detectDuplicates_snd (cfg : Config) (st : EngineState) (p : ReceiptProfile) :
    (detectDuplicates cfg st p).2 = rememberProfile st p := by
  unfold detectDuplicates
  split <;> rfl

theorem analyzeStep_bounds (sim : String → String → ℚ)
    (ml : Option (List ℚ → ℚ → String → Option String)) (st : EngineState)
    (c : String × Normalized)
    (h1 : st.duplicate_profiles.length ≤ 2000)
    (h2 : st.global_amount_history.length ≤ 500)
    (h3 : ∀ e ∈ st.vendor_amount_history, e.2.length ≤ 100) :
    (analyzeStep (cfgOf sim ml) st c).duplicate_profiles.length ≤ 2000 ∧
      (analyzeStep (cfgOf sim ml) st c).global_amount_history.length ≤ 500 ∧
      ∀ e ∈ (analyzeStep (cfgOf sim ml) st c).vendor_amount_history,
        e.2.length ≤ 100 := by
  cases hb : buildProfile c.1 c.2 with
  | error e =>
    have hstep : analyzeStep (cfgOf sim ml) st c = st := by
      simp [analyzeStep, analyze, hb]
    rw [hstep]
    exact ⟨h1, h2, h3⟩
  | ok p =>
    have hstep : analyzeStep (cfgOf sim ml) st c =
        (runAmountAnalyzers (cfgOf sim ml) (rememberProfile st p) p).2 := by
      simp [analyzeStep, analyze, hb, detectDuplicates_snd]
    rw [hstep]
    have hdup1 : (rememberProfile st p).duplicate_profiles.length ≤ 2000 :=
      dequeAppend_length_le_of_le _ _ _ h1
    cases hpa : p.amount with
    | none =>
      rw [show (runAmountAnalyzers (cfgOf sim ml) (rememberProfile st p) p).2 =
          rememberProfile st p by unfold runAmountAnalyzers; rw [hpa]]
      exact ⟨hdup1, h2, h3⟩
    | some a =>
      simp only [runAmountAnalyzers, hpa]
      refine ⟨hdup1, dequeAppend_length_le_of_le _ _ _ h2, ?_⟩
      intro e he
      rcases assocSet_mem _ _ _ e he with hmem | heq
      · exact h3 e hmem
      · rw [heq]
        exact dequeAppend_length_le_of_le _ _ _
          (lookup_getD_length_le st.vendor_amount_history _ 100 h3)

theorem canonStep_bounds (sim : String → String → ℚ) (st : NormState)
    (v : Option String) (h : st.vendor_lexicon.length ≤ st.vendor_cache_limit) :
    (canonStep sim st v).vendor_lexicon.length ≤
        (canonStep sim st v).vendor_cache_limit ∧
      (canonStep sim st v).vendor_cache_limit = st.vendor_cache_limit := by
  unfold canonStep canonicalizeVendor
  cases hs : sanitizeVendor v with
  | none => exact ⟨h, rfl⟩
  | some w =>
    dsimp only
    cases hm : maxByScore (List.map (fun e => (e.2, sim w e.1)) st.vendor_lexicon) with
    | none => exact ⟨rememberVendor_length_le _ _ _ _ h, rfl⟩
    | some ws =>
      dsimp only
      by_cases h90 : ws.2 > 90
      · rw [if_pos h90]
        exact ⟨h, rfl⟩
      · rw [if_neg h90]
        exact ⟨rememberVendor_length_le _ _ _ _ h, rfl⟩

/-- C9 (confirmed): after every sequence of `analyze` calls from a fresh engine
the duplicate buffer holds at most 2000 profiles, the global amount history at
most 500 values and every per-vendor history at most 100 values; and after
every sequence of vendor canonicalizations from a fresh normalizer the alias
cache holds at most its capacity of 2000 entries. -/
theorem bounded_aggregate_state (sim : String → String → ℚ)
    (ml : Option (List ℚ → ℚ → String → Option String))
    (calls : List (String × Normalized)) (vendors : List (Option String)) :
    ((calls.foldl (analyzeStep (cfgOf sim ml)) initState).duplicate_profiles.length ≤ 2000 ∧
      (calls.foldl (analyzeStep (cfgOf sim ml)) initState).global_amount_history.length ≤ 500 ∧
      ((calls.foldl (analyzeStep (cfgOf sim ml)) initState).vendor_amount_history.all
          (fun e => decide (e.2.length ≤ 100))) = true) ∧
      (vendors.foldl (canonStep sim) {}).vendor_lexicon.length ≤ 2000 := by
  constructor
  · have main : ∀ (cs : List (String × Normalized)) (st : EngineState),
        st.duplicate_profiles.length ≤ 2000 →
        st.global_amount_history.length ≤ 500 →
        (∀ e ∈ st.vendor_amount_history, e.2.length ≤ 100) →
        ((cs.foldl (analyzeStep (cfgOf sim ml)) st).duplicate_profiles.length ≤ 2000 ∧
          (cs.foldl (analyzeStep (cfgOf sim ml)) st).global_amount_history.length ≤ 500 ∧
          ∀ e ∈ (cs.foldl (analyzeStep (cfgOf sim ml)) st).vendor_amount_history,
            e.2.length ≤ 100) := by
      intro cs
      induction cs with
      | nil => intro st a b c; exact ⟨a, b, c⟩
      | cons hd tl ih =>
        intro st a b c
        obtain ⟨a2, b2, c2⟩ := analyzeStep_bounds sim ml st hd a b c
        exact ih (analyzeStep (cfgOf sim ml) st hd) a2 b2 c2
    obtain ⟨a, b, c⟩ := main calls initState (by simp [initState])
      (by simp [initState]) (by simp [initState])
    refine ⟨a, b, ?_⟩
    rw [List.all_eq_true]
    intro e he
    simpa using c e he
  · have main : ∀ (vs : List (Option String)) (st : NormState),
        st.vendor_lexicon.length ≤ st.vendor_cache_limit →
        ((vs.foldl (canonStep sim) st).vendor_lexicon.length ≤
            (vs.foldl (canonStep sim) st).vendor_cache_limit ∧
          (vs.foldl (canonStep sim) st).vendor_cache_limit = st.vendor_cache_limit) := by
      intro vs
      induction vs with
      | nil => intro st a; exact ⟨a, rfl⟩
      | cons hd tl ih =>
        intro st a
        obtain ⟨a2, hlim⟩ := canonStep_bounds sim st hd a
        obtain ⟨b2, hlim2⟩ := ih (canonStep sim st hd) a2
        exact ⟨b2, hlim2.trans hlim⟩
    obtain ⟨a, hlim⟩ := main vendors {} (by simp)
    rw [hlim] at a
    exact a

theorem buildProfile_ok_amount (id : String) (n : Normalized) (p : ReceiptProfile)
    (h : buildProfile id n = .ok p) : p.amount = anomToFloat n.total_amount := by
  unfold buildProfile at h
  cases hv : pyStrip (pyOrDefault n.vendor_name (.str "未知供应商")) with
  | error e => rw [hv] at h; simp [Bind.bind, Except.bind] at h
  | ok ven =>
    rw [hv] at h
    cases hd : parseDate n.issue_date with
    | error e => rw [hd] at h; simp [Bind.bind, Except.bind] at h
    | ok dt =>
      rw [hd] at h
      simp only [Bind.bind, Except.bind, Except.ok.injEq] at h
      rw [← h]

theorem rules_skip_on_missing_amount (cfg : Config) (p : ReceiptProfile)
    (n : Normalized) (h : p.amount = none) :
    evaluateRules (buildRules cfg) p n = [] := by
  have h1 : predTaxGtTotal p n = .ok false := by
    unfold predTaxGtTotal
    rw [h]
    cases p.tax_amount <;> rfl
  have h2 : predTaxRatioHigh cfg.settings.anomaly_tax_ratio_upper p n = .ok false := by
    unfold predTaxRatioHigh taxFraction
    rw [h]
  have h3 : predTaxRatioLow cfg.settings.anomaly_tax_ratio_lower p n = .ok false := by
    unfold predTaxRatioLow taxFraction
    rw [h]
    cases p.tax_amount <;> rfl
  cases hc : categoryContains p n ["餐", "meal"] with
  | error e =>
    have h4 : predHighMeal p n = .error e := by
      unfold predHighMeal
      rw [hc]
      rfl
    simp [evaluateRules, buildRules, h1, h2, h3, h4]
  | ok c =>
    have h4 : predHighMeal p n = .ok false := by
      unfold predHighMeal
      rw [hc]
      simp only [Bind.bind, Except.bind, h, Bool.and_false, Except.ok.injEq]
    simp [evaluateRules, buildRules, h1, h2, h3, h4]

/-- C10 (confirmed): when the `total_amount` field normalizes to `None`, a
successful `analyze` call returns exactly empty anomalies and empty duplicates
— no outlier detector and no rule can produce a finding — and its only state
change is appending the built profile to the duplicate buffer: the global and
per-vendor history windows are untouched. -/
theorem missing_amount_frame (cfg : Config) (st : EngineState) (docId : String)
    (n : Normalized) (r : List Finding × List String) (st2 : EngineState)
    (hnone : anomToFloat n.total_amount = none)
    (hok : analyze cfg st docId n = .ok (r, st2)) :
    r.1 = [] ∧ r.2 = [] ∧
      st2.global_amount_history = st.global_amount_history ∧
      st2.vendor_amount_history = st.vendor_amount_history ∧
      ∃ p, buildProfile docId n = .ok p ∧ p.amount = none ∧
        st2.duplicate_profiles =
          dequeAppend DUPLICATE_BUFFER_LIMIT st.duplicate_profiles p := by
  cases hb : buildProfile docId n with
  | error e => simp [analyze, hb] at hok
  | ok p =>
    have hpa : p.amount = none := (buildProfile_ok_amount docId n p hb).trans hnone
    have htr : truthyAmount p = false := by
      unfold truthyAmount
      rw [hpa]
    have hdet : detectDuplicates cfg st p = ([], rememberProfile st p) := by
      unfold detectDuplicates
      rw [htr]
      simp
    have hrun : runAmountAnalyzers cfg (rememberProfile st p) p =
        ([], rememberProfile st p) := by
      unfold runAmountAnalyzers
      rw [hpa]
    have hrules := rules_skip_on_missing_amount cfg p n hpa
    have hres : analyze cfg st docId n = .ok (([], []), rememberProfile st p) := by
      simp [analyze, hb, hdet, hrun, hrules]
    rw [hres] at hok
    rw [Except.ok.injEq, Prod.mk.injEq] at hok
    obtain ⟨hr, hst⟩ := hok
    rw [← hr, ← hst]
    exact ⟨rfl, rfl, rfl, rfl, p, rfl, hpa, rfl⟩

/-- C10 (witness): the frame property applied to a fresh engine and an input
whose only field is the unparseable amount "abc". -/
theorem missing_amount_frame_witness :
    (([], []) : List Finding × List String).1 = [] ∧
      (([], []) : List Finding × List String).2 = [] ∧
      (bufState [pAbc]).global_amount_history = initState.global_amount_history ∧
      (bufState [pAbc]).vendor_amount_history = initState.vendor_amount_history ∧
      ∃ p, buildProfile "D1" nAbc = .ok p ∧ p.amount = none ∧
        (bufState [pAbc]).duplicate_profiles =
          dequeAppend DUPLICATE_BUFFER_LIMIT initState.duplicate_profiles p :=
  missing_amount_frame testCfg initState "D1" nAbc ([], []) (bufState [pAbc])
    rfl (by rfl)

end EFMS
